import Mathlib

/-!
Shallow embedding of the observable dependency/revision engine of
`src/observable.ts` (classes `Observable`, `ObservableOf`, `Property`,
`Collection`).  Machine state is explicit; the asynchronous fetch is split
into its synchronous prefix (`Property.reset`) and its two continuations
(`Property.resetResolve` for a resolved promise, `Property.resetReject`
for a rejected one).  External side effects (the injected `get`/`set`/
`add`/`delete` callbacks, change-handler invocations, console output and
the error sink) are recorded as data in the result structures.
-/

/- ---------------------------------------------------------------- -/
/- A fragment of JavaScript values, enough for the branches taken by
   `Property.set` and the `then` handler inside `Property.reset`.     -/

inductive JSValue : Type where
  | vNull      : JSValue
  | vUndefined : JSValue
  | vBool      : Bool → JSValue
  | vNum       : Int → JSValue
  | vBigInt    : Int → JSValue
  | vStr       : String → JSValue
  | vArr       : List JSValue → JSValue
  | vObj       : List (String × JSValue) → JSValue

/-- JavaScript truthiness of the modelled value fragment. -/
def truthy : JSValue → Bool
  | JSValue.vNull => false
  | JSValue.vUndefined => false
  | JSValue.vBool b => b
  | JSValue.vNum n => n != 0
  | JSValue.vBigInt n => n != 0
  | JSValue.vStr s => s != ""
  | JSValue.vArr _ => true
  | JSValue.vObj _ => true

/-- JavaScript `typeof` (note `typeof null === 'object'`). -/
def jsTypeof : JSValue → String
  | JSValue.vNull => "object"
  | JSValue.vUndefined => "undefined"
  | JSValue.vBool _ => "boolean"
  | JSValue.vNum _ => "number"
  | JSValue.vBigInt _ => "bigint"
  | JSValue.vStr _ => "string"
  | JSValue.vArr _ => "object"
  | JSValue.vObj _ => "object"

/-- `Array.isArray`. -/
def isArray : JSValue → Bool
  | JSValue.vArr _ => true
  | _ => false

/-- True for the absent results (`null` / `undefined`) of a get operation. -/
def isNullOrUndefined : JSValue → Bool
  | JSValue.vNull => true
  | JSValue.vUndefined => true
  | _ => false

/-- Assign one key into an object field list, keeping the position of an
existing key and appending a new one (JS own-property order). -/
def setField : List (String × JSValue) → String → JSValue → List (String × JSValue)
  | [], k, v => [(k, v)]
  | (k0, v0) :: rest, k, v =>
      if k0 = k then (k, v) :: rest else (k0, v0) :: setField rest k v

/-- Copy the fields of the source into the target, left to right. -/
def assignFields (old : List (String × JSValue)) :
    List (String × JSValue) → List (String × JSValue)
  | [] => old
  | (k, v) :: rest => assignFields (setField old k v) rest

/-- `Object.assign(old, src)` on the modelled fragment: object sources are
shallow-merged into an object target, array sources contribute their
indexed entries, `null`/`undefined` sources contribute nothing.  Primitive
targets (which JS would box into wrapper objects) are outside the modelled
fragment and left unchanged. -/
def objAssign (old srcv : JSValue) : JSValue :=
  match old, srcv with
  | JSValue.vObj fs, JSValue.vObj gs => JSValue.vObj (assignFields fs gs)
  | JSValue.vObj fs, JSValue.vArr xs =>
      JSValue.vObj (assignFields fs (xs.enum.map (fun p => (toString p.1, p.2))))
  | _, _ => old

/- ---------------------------------------------------------------- -/
/- Property state (class `Property<TModel,TAggregate>`).              -/

/-- One entry of `Observable.dependencies`
(`Set<\x7b revision: number, observable: Observable \x7d>`): `revision` is the
tracked revision owned by this node, `observableRevision` the referenced
dependency's own current `_revision`. -/
structure Dep where
  revision : Nat
  observableRevision : Nat
deriving DecidableEq, Repr

/-- The per-node state of a `Property`: `_value`, `_revision`,
`_isAsyncUpdating`, the dependency set with tracked revisions, the
`_cached` flag, the (pure) default generator's output, and the number of
registered change handlers (`ObservableOf.changeHandlers.size`). -/
structure PropertyState where
  value : JSValue
  revision : Nat
  isAsyncUpdating : Bool
  dependencies : List Dep
  cached : Bool
  defaultVal : JSValue
  changeHandlers : Nat

/-- The `Property` constructor: `_revision = 0`, `_value = default()`,
each dependency's tracked revision captured as its current revision. -/
def Property.mkState (defaultVal : JSValue) (cached : Bool)
    (depRevs : List Nat) : PropertyState :=
  { value := defaultVal
    revision := 0
    isAsyncUpdating := false
    dependencies := depRevs.map (fun r => { revision := r, observableRevision := r })
    cached := cached
    defaultVal := defaultVal
    changeHandlers := 0 }

/-- Externally visible effects of one `Property.set` call.
`setFuncCalled` is the echo-suppressed forwarding to the external commit
function; `handlersFired` the number of change handlers invoked; the
non-forced `reset()` sent to every dependent is a cross-node effect. -/
structure SetResult where
  state : PropertyState
  setFuncCalled : Bool
  handlersFired : Nat

/-- `Property.set(value, byRef)`: merge or assign the value, always
increment `_revision`, forward to `setFunc` unless `_isAsyncUpdating`,
trigger change handlers, then reset dependents. -/
def Property.set (s : PropertyState) (v : JSValue) (byRef : Bool) : SetResult :=
  let newValue :=
    if byRef = false && jsTypeof v == "object" then
      if isArray s.value && isArray v then
        v  -- `value.slice()`: fresh array with the same elements
      else
        objAssign s.value v  -- `Object.assign(this._value, value)`
    else
      v
  { state := { s with value := newValue, revision := s.revision + 1 }
    setFuncCalled := !s.isAsyncUpdating
    handlersFired := s.changeHandlers }

/-- How the synchronous part of `Property.reset` returned. -/
inductive ResetSyncOutcome : Type where
  /-- Step 1: some dependencies were undefined; `reset()` was issued to
  each of them (count recorded) and the call returned. -/
  | deferredUndefinedDeps : Nat → ResetSyncOutcome
  /-- Step 2: dependencies exist, no force, none dirty; returned. -/
  | cleanNoop : ResetSyncOutcome
  /-- Step 3: already `_isAsyncUpdating`; reentrant call dropped. -/
  | reentrant : ResetSyncOutcome
  /-- Step 4: `_isAsyncUpdating` set and `getFunc()` invoked. -/
  | fetchStarted : ResetSyncOutcome
deriving DecidableEq, Repr

/-- The dirty-scan loop body of `Property.reset`: a dirty dependency gets
its tracked revision updated to the dependency's current revision. -/
def updateTracked (d : Dep) : Dep :=
  if d.revision < d.observableRevision then
    { d with revision := d.observableRevision }
  else
    d

/-- The synchronous part of `Property.reset(force)`; `getFunc()` is
invoked exactly when the outcome is `fetchStarted`. -/
def Property.reset (s : PropertyState) (force : Bool) : PropertyState × ResetSyncOutcome :=
  let undefinedDeps := s.dependencies.filter (fun d => d.observableRevision < 1)
  if 0 < undefinedDeps.length then
    (s, ResetSyncOutcome.deferredUndefinedDeps undefinedDeps.length)
  else
    let someWasDirty := s.dependencies.any (fun d => d.revision < d.observableRevision)
    let s1 := { s with dependencies := s.dependencies.map updateTracked }
    if 0 < s.dependencies.length ∧ force = false ∧ someWasDirty = false then
      (s1, ResetSyncOutcome.cleanNoop)
    else if s.isAsyncUpdating then
      (s1, ResetSyncOutcome.reentrant)
    else
      ({ s1 with isAsyncUpdating := true }, ResetSyncOutcome.fetchStarted)

/-- Effects of completing the promise returned by `getFunc()` inside
`Property.reset` (the `then`/`catch` handlers followed by `finally`). -/
structure ResetCompletion where
  state : PropertyState
  committed : Bool
  setFuncCalled : Bool
  handlersFired : Nat
  consoleErrors : List String
  errorSinkMsgs : List String

/-- The `then` handler of `Property.reset` plus the `finally`: commit a
truthy value, or a falsy value of type number/bigint (catching `0`/`0n`),
through the `value` setter (which is `set`); otherwise do nothing; always
clear `_isAsyncUpdating`. -/
def Property.resetResolve (s : PropertyState) (v : JSValue) : ResetCompletion :=
  if truthy v then
    let r := Property.set s v false
    { state := { r.state with isAsyncUpdating := false }
      committed := true
      setFuncCalled := r.setFuncCalled
      handlersFired := r.handlersFired
      consoleErrors := []
      errorSinkMsgs := [] }
  else if jsTypeof v == "number" || jsTypeof v == "bigint" then
    let r := Property.set s v false
    { state := { r.state with isAsyncUpdating := false }
      committed := true
      setFuncCalled := r.setFuncCalled
      handlersFired := r.handlersFired
      consoleErrors := []
      errorSinkMsgs := [] }
  else
    { state := { s with isAsyncUpdating := false }
      committed := false
      setFuncCalled := false
      handlersFired := 0
      consoleErrors := []
      errorSinkMsgs := [] }

/-- The `catch` handler of `Property.reset` plus the `finally`: the code
logs `CATCH ...` through `console.error` and clears `_isAsyncUpdating`;
the configured `errors` callback is not invoked anywhere in `reset`. -/
def Property.resetReject (s : PropertyState) (reason : String) : ResetCompletion :=
  { state := { s with isAsyncUpdating := false }
    committed := false
    setFuncCalled := false
    handlersFired := 0
    consoleErrors := ["CATCH Property.reset " ++ reason]
    errorSinkMsgs := [] }

/-- `Property._reinit()`: a no-op when already undefined; otherwise reinit
all dependents (cross-node effect), zero every tracked revision, restore
the default value unless `_cached`, and zero `_revision`. -/
def Property.reinit (s : PropertyState) : PropertyState :=
  if 0 < s.revision then
    { s with
        dependencies := s.dependencies.map (fun d => { d with revision := 0 })
        value := if s.cached then s.value else s.defaultVal
        revision := 0 }
  else
    s

/-- `ObservableOf.observe`: register the handler, then `reset()` if
undefined, else replay the current value to the handler. -/
def Property.observe (s : PropertyState) : PropertyState :=
  let s1 := { s with changeHandlers := s.changeHandlers + 1 }
  if s1.revision < 1 then (Property.reset s1 false).1 else s1

/-- The `end` closure returned by `ObservableOf.observe`: delete the
handler; when no handler remains, `_reinit()`. -/
def Property.endObservation (s : PropertyState) : PropertyState :=
  let s1 := { s with changeHandlers := s.changeHandlers - 1 }
  if s1.changeHandlers < 1 then Property.reinit s1 else s1

/-- One operation on a single `Property` node. -/
inductive Op : Type where
  | setOp : JSValue → Bool → Op
  | resetSync : Bool → Op
  | resolveOp : JSValue → Op
  | rejectOp : String → Op
  | observeOp : Op
  | endObservationOp : Op
  | reinitOp : Op

/-- Apply one operation to a node's state. -/
def Property.step (s : PropertyState) : Op → PropertyState
  | Op.setOp v byRef => (Property.set s v byRef).state
  | Op.resetSync force => (Property.reset s force).1
  | Op.resolveOp v => (Property.resetResolve s v).state
  | Op.rejectOp reason => (Property.resetReject s reason).state
  | Op.observeOp => Property.observe s
  | Op.endObservationOp => Property.endObservation s
  | Op.reinitOp => Property.reinit s

/- ---------------------------------------------------------------- -/
/- Collection state (class `Collection<TModel,TAggregate>`).          -/

/-- The state of a `Collection` relevant to its sequence operations:
the boxed elements of `__items.value` (each boxed `Property` carries its
captured model as value; without a map function model and aggregate
coincide), the stored `__focus.value`, and the `__items` property's own
`_revision`. -/
structure CollectionState (α : Type) where
  items : List α
  focus : Int
  itemsRevision : Nat
deriving DecidableEq, Repr

/-- `Collection.size`: the length of `__items.value`. -/
def Collection.size {α : Type} (s : CollectionState α) : Nat :=
  s.items.length

/-- `Collection.validatedFocus(index)`: in-range indices (including `-1`)
pass through; an out-of-range index throws on an empty sequence and is
clamped to the last index otherwise. -/
def Collection.validatedFocus {α : Type} (s : CollectionState α) (index : Int) :
    Except String Int :=
  if index < -1 || (s.items.length : Int) ≤ index then
    if s.items.length < 1 then
      Except.error "Illegal __focus in Collection"
    else
      Except.ok ((s.items.length : Int) - 1)
  else
    Except.ok index

/-- `Collection.CurrentAsIndex`: `validatedFocus(this.__focus.value)`. -/
def Collection.CurrentAsIndex {α : Type} (s : CollectionState α) : Except String Int :=
  Collection.validatedFocus s s.focus

/-- `Collection.CurrentAsModel`: the validated index's boxed element's
model, or `null` when the validated index is `-1`. -/
def Collection.CurrentAsModel {α : Type} (s : CollectionState α) :
    Except String (Option α) :=
  (Collection.validatedFocus s s.focus).map
    (fun i => if 0 ≤ i then s.items.get? i.toNat else none)

/-- `Collection.add(value)`: invoke `addFunc` (external), box the model,
`push` it (`Array.push` returns the new length), store that return value
into `__focus.value`, and trigger `__items`'s change handlers once (the
second component counts the `_triggerChangeHandlers` calls). -/
def Collection.add {α : Type} (s : CollectionState α) (m : α) :
    CollectionState α × Nat :=
  let items1 := s.items ++ [m]
  let index : Int := items1.length
  ({ s with items := items1, focus := index }, 1)

/-- `Collection.deleteIndex(index)`: splice the element out, set the focus
to `-1` when now empty and to `0` otherwise, invoke `deleteFunc` and
`dispose` on the removed box (external), and trigger `__items`'s change
handlers once. -/
def Collection.deleteIndex {α : Type} (s : CollectionState α) (index : Nat) :
    CollectionState α × Nat :=
  let items1 := s.items.eraseIdx index
  ({ s with items := items1, focus := if items1.length < 1 then -1 else 0 }, 1)

/-- The `for` loop of `Collection.delete`: test `items[i]`, delete the
index when the predicate matches, and increment `i` either way; the loop
runs while `i < items.length` against the shrinking array.  The fuel
argument bounds the iteration count; since `i` strictly increases and the
length never grows, `items.length` iterations always suffice. -/
def Collection.deleteLoop {α : Type} (p : α → Bool) :
    Nat → CollectionState α → Nat → CollectionState α × Nat
  | 0, s, _ => (s, 0)
  | fuel + 1, s, i =>
      if h : i < s.items.length then
        if p (s.items.get ⟨i, h⟩) then
          let r1 := Collection.deleteIndex s i
          let r2 := Collection.deleteLoop p fuel r1.1 (i + 1)
          (r2.1, r1.2 + r2.2)
        else
          Collection.deleteLoop p fuel s (i + 1)
      else
        (s, 0)

/-- `Collection.delete(predicate)`: run the deletion loop from index 0. -/
def Collection.delete {α : Type} (s : CollectionState α) (p : α → Bool) :
    CollectionState α × Nat :=
  Collection.deleteLoop p s.items.length s 0

/-- Stable insertion of one element under a comparator. -/
def sortInsert {α : Type} (le : α → α → Bool) (a : α) : List α → List α
  | [] => [a]
  | b :: rest => if le a b then a :: b :: rest else b :: sortInsert le a rest

/-- A stable comparator sort, modelling `Array.prototype.sort`. -/
def sortList {α : Type} (le : α → α → Bool) : List α → List α
  | [] => []
  | a :: rest => sortInsert le a (sortList le rest)

/-- `Collection.sort(compareFn)`: reorder `__items.value` in place and
trigger `__items`'s change handlers; `__items.set` is never called. -/
def Collection.sort {α : Type} (s : CollectionState α) (le : α → α → Bool) :
    CollectionState α × Nat :=
  ({ s with items := sortList le s.items }, 1)

/-- `Collection.reverse()`: reverse `__items.value` in place and trigger
`__items`'s change handlers; `__items.set` is never called. -/
def Collection.reverse {α : Type} (s : CollectionState α) :
    CollectionState α × Nat :=
  ({ s with items := s.items.reverse }, 1)

/-- `Observable.isDirty(revision)` evaluated by a dependent against the
`__items` property: true iff `__items._revision > revision`. -/
def Collection.itemsIsDirty {α : Type} (s : CollectionState α)
    (trackedRevision : Nat) : Bool :=
  trackedRevision < s.itemsRevision

/-- A minimal record model for the collection scenarios. -/
structure IdModel where
  id : Nat
deriving DecidableEq, Repr

/- ---------------------------------------------------------------- -/
/- Helper lemmas.                                                    -/

/-- A dependency list in which no dependency outruns its tracked revision
is left unchanged by the dirty-scan update. -/
theorem cleanDeps_map_fixed (l : List Dep)
    (h : ∀ d ∈ l, d.observableRevision ≤ d.revision) :
    l.map updateTracked = l := by
  induction l with
  | nil => rfl
  | cons a t ih =>
      have ha := h a (by simp)
      have ht := ih (fun d hd => h d (by simp [hd]))
      simp [updateTracked, Nat.not_lt.mpr ha, ht]

/-- A dependency list in which no dependency outruns its tracked revision
reports no dirty entry. -/
theorem cleanDeps_any_false (l : List Dep)
    (h : ∀ d ∈ l, d.observableRevision ≤ d.revision) :
    l.any (fun d => d.revision < d.observableRevision) = false := by
  induction l with
  | nil => rfl
  | cons a t ih =>
      have ha := h a (by simp)
      have ht := ih (fun d hd => h d (by simp [hd]))
      simp [List.any_cons, Nat.not_lt.mpr ha, ht]

/-- A dependency list whose members are all defined has no undefined
member to filter out. -/
theorem definedDeps_filter_nil (l : List Dep)
    (h : ∀ d ∈ l, 1 ≤ d.observableRevision) :
    l.filter (fun d => d.observableRevision < 1) = [] := by
  induction l with
  | nil => rfl
  | cons a t ih =>
      have ha := h a (by simp)
      have ha0 : ¬ a.observableRevision = 0 := by omega
      have ht := ih (fun d hd => h d (by simp [hd]))
      simp [List.filter_cons, ha0, ht]
      intro d hd
      have := h d (by simp [hd])
      omega

/- ---------------------------------------------------------------- -/
/- Concrete states used by witnesses and counterexamples.             -/

/-- A node with two dependencies, both defined and both clean
(tracked revision at least the dependency's current revision). -/
def sC1 : PropertyState :=
  { value := JSValue.vNum 1
    revision := 3
    isAsyncUpdating := false
    dependencies := [{ revision := 2, observableRevision := 2 },
                     { revision := 5, observableRevision := 4 }]
    cached := false
    defaultVal := JSValue.vNum 0
    changeHandlers := 1 }

/-- A node with a fetch in flight. -/
def sC2 : PropertyState :=
  { value := JSValue.vNull
    revision := 1
    isAsyncUpdating := true
    dependencies := []
    cached := false
    defaultVal := JSValue.vNull
    changeHandlers := 0 }

/-- A defined node whose in-flight fetch is about to reject. -/
def s3ex : PropertyState :=
  { value := JSValue.vStr "v0"
    revision := 5
    isAsyncUpdating := true
    dependencies := []
    cached := false
    defaultVal := JSValue.vStr ""
    changeHandlers := 1 }

/- ---------------------------------------------------------------- -/
/- Claim theorems.                                                   -/

/-- C1: for a `Property` with a non-empty dependency set, all dependencies
defined (revision at least 1) and none dirtier than its tracked revision,
a non-forced `reset()` is a complete no-op: the outcome is `cleanNoop`
(so `getFunc` is not invoked) and the state — value, revision, updating
flag and tracked revisions — is exactly unchanged. -/
theorem reset_clean_is_noop (s : PropertyState)
    (hne : s.dependencies ≠ [])
    (hdef : ∀ d ∈ s.dependencies, 1 ≤ d.observableRevision)
    (hclean : ∀ d ∈ s.dependencies, d.observableRevision ≤ d.revision) :
    Property.reset s false = (s, ResetSyncOutcome.cleanNoop) := by
  have hlen : 0 < s.dependencies.length := List.length_pos.mpr hne
  unfold Property.reset
  simp [definedDeps_filter_nil _ hdef, cleanDeps_any_false _ hclean,
        cleanDeps_map_fixed _ hclean, hlen, hclean]
  intro a haa
  have := hdef a haa
  omega

theorem reset_clean_is_noop_witness :
    sC1.dependencies ≠ [] ∧
    Property.reset sC1 false = (sC1, ResetSyncOutcome.cleanNoop) :=
  ⟨by decide, reset_clean_is_noop sC1 (by decide) (by decide) (by decide)⟩

/-- C2: calling `reset()` (with or without `force`) while the node's
`_isAsyncUpdating` flag is set never reaches the fetch step: the outcome
is not `fetchStarted` (`getFunc` is not invoked again) and the flag stays
set, so a node never has two concurrently pending get invocations. -/
theorem reset_reentrant_no_fetch (s : PropertyState) (force : Bool)
    (h : s.isAsyncUpdating = true) :
    (Property.reset s force).2 ≠ ResetSyncOutcome.fetchStarted ∧
    (Property.reset s force).1.isAsyncUpdating = true := by
  simp only [Property.reset, h]
  split
  · simp [h]
  · split <;> simp [h]

theorem reset_reentrant_no_fetch_witness :
    sC2.isAsyncUpdating = true ∧
    ((Property.reset sC2 true).2 ≠ ResetSyncOutcome.fetchStarted ∧
     (Property.reset sC2 true).1.isAsyncUpdating = true) :=
  ⟨rfl, reset_reentrant_no_fetch sC2 true rfl⟩

/-- C3 (evaluation at the failing input): when the get operation rejects,
the `catch` handler of `Property.reset` leaves the configured error sink
empty and writes to the console instead, while value and revision are
unchanged and the updating flag is cleared — the claim (and the spec)
says the failure is reported through the `errors` callback, but the code
never invokes it. -/
theorem resetReject_bypasses_errorSink :
    (Property.resetReject s3ex "boom").errorSinkMsgs = [] ∧
    (Property.resetReject s3ex "boom").consoleErrors = ["CATCH Property.reset boom"] ∧
    (Property.resetReject s3ex "boom").state.value = JSValue.vStr "v0" ∧
    (Property.resetReject s3ex "boom").state.revision = 5 ∧
    (Property.resetReject s3ex "boom").state.isAsyncUpdating = false :=
  ⟨rfl, rfl, rfl, rfl, rfl⟩

/-- The synchronous part of `reset` never changes `_revision`. -/
theorem reset_preserves_revision (s : PropertyState) (force : Bool) :
    (Property.reset s force).1.revision = s.revision := by
  simp only [Property.reset]
  split
  · rfl
  · split
    · rfl
    · split <;> rfl

/-- The state a single committed `set()` produces, starting from a fresh
node: revision 1. -/
def s4ex : PropertyState :=
  (Property.set (Property.mkState (JSValue.vNum 0) false []) (JSValue.vNum 7) false).state

/-- C4 (counterexample): `_reinit()` on a node with revision 1 drops the
revision back to 0, so `revision` is not non-decreasing across the listed
operation set, which includes `_reinit`. -/
theorem reinit_drops_revision :
    s4ex.revision = 1 ∧ (Property.step s4ex Op.reinitOp).revision = 0 :=
  ⟨rfl, rfl⟩

/-- C4 (amended): the revision effect of every operation, pinned down per
operation so that `_reinit` is provably the sole decrease.  Each `set()`
increments the revision by exactly 1; the synchronous part of `reset`, a
rejected fetch and `observe` leave it unchanged; a resolved fetch never
decreases it; ending an observation leaves it unchanged while other
handlers remain, and when the last handler is removed the operation is
exactly `_reinit` of the handler-decremented state; `_reinit` itself
either finds the node undefined and changes nothing at all or resets the
revision to 0, and construction starts it at 0. -/
theorem revision_monotone_except_reinit :
    (∀ (s : PropertyState) (v : JSValue) (b : Bool),
        (Property.step s (Op.setOp v b)).revision = s.revision + 1) ∧
    (∀ (s : PropertyState) (force : Bool),
        (Property.step s (Op.resetSync force)).revision = s.revision) ∧
    (∀ (s : PropertyState) (v : JSValue),
        s.revision ≤ (Property.step s (Op.resolveOp v)).revision) ∧
    (∀ (s : PropertyState) (reason : String),
        (Property.step s (Op.rejectOp reason)).revision = s.revision) ∧
    (∀ (s : PropertyState),
        (Property.step s Op.observeOp).revision = s.revision) ∧
    (∀ (s : PropertyState), 1 < s.changeHandlers →
        (Property.step s Op.endObservationOp).revision = s.revision) ∧
    (∀ (s : PropertyState), s.changeHandlers ≤ 1 →
        Property.step s Op.endObservationOp
          = Property.reinit { s with changeHandlers := s.changeHandlers - 1 }) ∧
    (∀ (s : PropertyState),
        (Property.step s Op.reinitOp).revision = 0 ∨ Property.step s Op.reinitOp = s) ∧
    (∀ (s : PropertyState), 0 < s.revision →
        (Property.step s Op.reinitOp).revision = 0) ∧
    (∀ (d : JSValue) (c : Bool) (rs : List Nat),
        (Property.mkState d c rs).revision = 0) := by
  refine ⟨fun s v b => rfl, ?_, ?_, fun s reason => rfl, ?_, ?_, ?_, ?_, ?_,
          fun d c rs => rfl⟩
  · exact fun s force => reset_preserves_revision s force
  · intro s v
    simp only [Property.step, Property.resetResolve]
    split
    · simp [Property.set]
    · split
      · simp [Property.set]
      · simp
  · intro s
    simp only [Property.step, Property.observe]
    split
    · simp [reset_preserves_revision]
    · simp
  · intro s h
    simp only [Property.step, Property.endObservation]
    rw [if_neg (show ¬ (s.changeHandlers - 1 < 1) by omega)]
  · intro s h
    simp only [Property.step, Property.endObservation]
    rw [if_pos (show s.changeHandlers - 1 < 1 by omega)]
  · intro s
    simp only [Property.step, Property.reinit]
    split
    · left; rfl
    · right; rfl
  · intro s h
    simp only [Property.step, Property.reinit]
    rw [if_pos h]

/-- A defined node with three registered change handlers. -/
def s4w1 : PropertyState :=
  { value := JSValue.vNum 1
    revision := 2
    isAsyncUpdating := false
    dependencies := []
    cached := false
    defaultVal := JSValue.vNum 0
    changeHandlers := 3 }

/-- A defined node with a single registered change handler. -/
def s4w2 : PropertyState :=
  { value := JSValue.vNum 4
    revision := 2
    isAsyncUpdating := false
    dependencies := []
    cached := false
    defaultVal := JSValue.vNum 0
    changeHandlers := 1 }

theorem revision_monotone_except_reinit_witness :
    (1 < s4w1.changeHandlers ∧
      (Property.step s4w1 Op.endObservationOp).revision = s4w1.revision) ∧
    (s4w2.changeHandlers ≤ 1 ∧
      Property.step s4w2 Op.endObservationOp
        = Property.reinit { s4w2 with changeHandlers := s4w2.changeHandlers - 1 }) ∧
    (0 < s4w2.revision ∧ (Property.step s4w2 Op.reinitOp).revision = 0) :=
  ⟨⟨by decide, revision_monotone_except_reinit.2.2.2.2.2.1 s4w1 (by decide)⟩,
   ⟨by decide, revision_monotone_except_reinit.2.2.2.2.2.2.1 s4w2 (by decide)⟩,
   ⟨by decide, revision_monotone_except_reinit.2.2.2.2.2.2.2.2.1 s4w2 (by decide)⟩⟩

/-- A defined node whose in-flight fetch is about to resolve. -/
def s5ex : PropertyState :=
  { value := JSValue.vStr "init"
    revision := 2
    isAsyncUpdating := true
    dependencies := []
    cached := false
    defaultVal := JSValue.vStr ""
    changeHandlers := 1 }

/-- C5 (counterexample): a resolved result of `false` is neither null nor
undefined, yet the `then` handler does not commit it — the node's value
and revision stay unchanged, contradicting the claim that every
non-null/defined result is committed via `set()`. -/
theorem resolve_false_not_committed :
    isNullOrUndefined (JSValue.vBool false) = false ∧
    (Property.resetResolve s5ex (JSValue.vBool false)).committed = false ∧
    (Property.resetResolve s5ex (JSValue.vBool false)).state.revision = s5ex.revision ∧
    (Property.resetResolve s5ex (JSValue.vBool false)).state.value = s5ex.value :=
  ⟨rfl, rfl, rfl, rfl⟩

/-- C5 (amended): a resolved result is committed via `set()` exactly when
it is truthy or of JavaScript type number/bigint (so the falsy numeric
edge cases `0` and `0n` are committed); a committed result bumps the
revision by 1 and fires the change handlers, any other result — null or
absent, but also `false` or the empty string — leaves value and revision
unchanged; in every case the updating flag ends cleared. -/
theorem resolve_commit_characterization (s : PropertyState) (v : JSValue) :
    (Property.resetResolve s v).committed
      = (truthy v || jsTypeof v == "number" || jsTypeof v == "bigint") ∧
    (Property.resetResolve s v).state.revision
      = (if truthy v || jsTypeof v == "number" || jsTypeof v == "bigint"
         then s.revision + 1 else s.revision) ∧
    (Property.resetResolve s v).state.value
      = (if truthy v || jsTypeof v == "number" || jsTypeof v == "bigint"
         then (Property.set s v false).state.value else s.value) ∧
    (Property.resetResolve s v).handlersFired
      = (if truthy v || jsTypeof v == "number" || jsTypeof v == "bigint"
         then s.changeHandlers else 0) ∧
    (Property.resetResolve s v).state.isAsyncUpdating = false ∧
    (Property.resetResolve s (JSValue.vNum 0)).committed = true ∧
    (Property.resetResolve s (JSValue.vBigInt 0)).committed = true ∧
    (Property.resetResolve s JSValue.vNull).committed = false := by
  refine ⟨?_, ?_, ?_, ?_, ?_, rfl, rfl, rfl⟩ <;>
    (cases v <;>
      simp only [Property.resetResolve, Property.set, truthy, jsTypeof] <;>
      first
        | rfl
        | (split <;> simp_all))

/-- A defined, uncached node with one registered change handler and one
dependency whose tracked revision is 3. -/
def sC6 : PropertyState :=
  { value := JSValue.vNum 9
    revision := 2
    isAsyncUpdating := false
    dependencies := [{ revision := 3, observableRevision := 3 }]
    cached := false
    defaultVal := JSValue.vNum 0
    changeHandlers := 1 }

/-- C6: ending the last remaining observation of a defined node runs
`_reinit()`: afterwards the revision is 0, every dependency's tracked
revision is 0, and the value is the default generator's output unless the
node was constructed with `cached`, in which case it is preserved. -/
theorem endLastObservation_reinits (s : PropertyState)
    (h1 : s.changeHandlers = 1) (h2 : 1 ≤ s.revision) :
    (Property.endObservation s).revision = 0 ∧
    ((Property.endObservation s).dependencies.all (fun d => d.revision == 0)) = true ∧
    (Property.endObservation s).value = (if s.cached then s.value else s.defaultVal) := by
  have hend : Property.endObservation s
      = Property.reinit { s with changeHandlers := 0 } := by
    simp [Property.endObservation, h1]
  have hre : Property.reinit { s with changeHandlers := 0 }
      = { s with changeHandlers := 0,
                 dependencies := s.dependencies.map (fun d => { d with revision := 0 }),
                 value := if s.cached then s.value else s.defaultVal,
                 revision := 0 } := by
    simp only [Property.reinit]
    rw [if_pos (show 0 < s.revision by omega)]
  rw [hend, hre]
  refine ⟨rfl, ?_, rfl⟩
  refine (List.all_eq_true).mpr ?_
  intro x hx
  rw [List.mem_map] at hx
  obtain ⟨d, hd, rfl⟩ := hx
  rfl

theorem endLastObservation_reinits_witness :
    sC6.changeHandlers = 1 ∧ 1 ≤ sC6.revision ∧
    ((Property.endObservation sC6).revision = 0 ∧
     ((Property.endObservation sC6).dependencies.all (fun d => d.revision == 0)) = true ∧
     (Property.endObservation sC6).value = (if sC6.cached then sC6.value else sC6.defaultVal)) :=
  ⟨rfl, by decide, endLastObservation_reinits sC6 rfl (by decide)⟩

/-- Characterization of `validatedFocus`: it throws exactly on an empty
sequence with a requested index other than `-1`; otherwise it passes an
in-range index (including `-1`) through and clamps the rest to the last
index. -/
theorem validatedFocus_eq {α : Type} (s : CollectionState α) (i : Int) :
    Collection.validatedFocus s i =
      (if s.items.length = 0 ∧ i ≠ -1 then
        Except.error "Illegal __focus in Collection"
      else if -1 ≤ i ∧ i < (s.items.length : Int) then
        Except.ok i
      else
        Except.ok ((s.items.length : Int) - 1)) := by
  unfold Collection.validatedFocus
  split_ifs <;> simp_all <;> omega

/-- C7: `add(m)` on a collection of n boxed elements appends a box for m
(size n+1) and the collection's current focus — read back through
`validatedFocus`, as every accessor reads it — is the newly appended
index n, the last index, whose model is m.  In particular with
n = 2 and m = `\x7bid:3\x7d`: size 3, `CurrentAsIndex` 2, `CurrentAsModel` m. -/
theorem add_appends_and_focuses_last {α : Type} (s : CollectionState α) (m : α) :
    Collection.size (Collection.add s m).1 = Collection.size s + 1 ∧
    Collection.CurrentAsIndex (Collection.add s m).1 = Except.ok (s.items.length : Int) ∧
    Collection.CurrentAsModel (Collection.add s m).1 = Except.ok (some m) := by
  have hsz : Collection.size (Collection.add s m).1 = Collection.size s + 1 := by
    simp [Collection.size, Collection.add]
  have hvf : Collection.validatedFocus (Collection.add s m).1 (Collection.add s m).1.focus
      = Except.ok (s.items.length : Int) := by
    rw [validatedFocus_eq]
    have h1 : ¬ ((Collection.add s m).1.items.length = 0 ∧ (Collection.add s m).1.focus ≠ -1) := by
      simp [Collection.add]
    rw [if_neg h1, if_neg]
    · simp [Collection.add]
    · simp [Collection.add]
  refine ⟨hsz, hvf, ?_⟩
  unfold Collection.CurrentAsModel
  rw [hvf]
  simp [Collection.add, Except.map, Int.toNat_ofNat, Int.natCast_nonneg,
        List.getElem?_concat_length]

/-- Two boxed elements whose models both satisfy `id == 1`. -/
def s8ex : CollectionState IdModel :=
  { items := [{ id := 1 }, { id := 1 }], focus := -1, itemsRevision := 1 }

/-- C8 (evaluation at the failing input): `delete(m => m.id == 1)` on the
two-element collection whose models both match removes only the first
element — the loop index advances past the element that shifted into the
deleted slot — so a matching element remains, contradicting the claim
that no element satisfying the predicate survives `delete`. -/
theorem delete_leaves_adjacent_match :
    (Collection.delete s8ex (fun m => m.id == 1)).1.items = [{ id := 1 }] ∧
    ((Collection.delete s8ex (fun m => m.id == 1)).1.items.any (fun m => m.id == 1)) = true := by
  constructor <;> decide

/-- C9: `validatedFocus(i)` raises exactly when the collection is empty
and an index other than `-1` was requested; an in-range index, including
`-1`, is returned unchanged, and an out-of-range index on a non-empty
collection is clamped to the last valid index `size-1`.  (At n = 3,
i = 5 the second else yields 2; at n = 0, i = 0 the first branch
raises.) -/
theorem validatedFocus_clamps_nonempty_throws_empty {α : Type}
    (s : CollectionState α) (i : Int) :
    Collection.validatedFocus s i =
      (if s.items.length = 0 ∧ i ≠ -1 then
        Except.error "Illegal __focus in Collection"
      else if -1 ≤ i ∧ i < (s.items.length : Int) then
        Except.ok i
      else
        Except.ok ((s.items.length : Int) - 1)) :=
  validatedFocus_eq s i

/-- C10: `sort(compareFn)` and `reverse()` reorder `__items.value` in
place and call `__items._triggerChangeHandlers()` once, but never go
through `set()`, so the `__items` revision is unchanged and a dependent's
`isDirty` check against any tracked revision gives the same answer before
and after. -/
theorem sort_reverse_bypass_revision {α : Type} (s : CollectionState α)
    (le : α → α → Bool) (r : Nat) :
    (Collection.sort s le).2 = 1 ∧
    (Collection.sort s le).1.itemsRevision = s.itemsRevision ∧
    Collection.itemsIsDirty (Collection.sort s le).1 r = Collection.itemsIsDirty s r ∧
    (Collection.reverse s).2 = 1 ∧
    (Collection.reverse s).1.itemsRevision = s.itemsRevision ∧
    Collection.itemsIsDirty (Collection.reverse s).1 r = Collection.itemsIsDirty s r :=
  ⟨rfl, rfl, rfl, rfl, rfl, rfl⟩
